import Mathlib

/-!
Shallow embedding of the greenlight release-dashboard persistence layer
(`src/database.js`, current schema version 2) and the route handlers that
call it (`src/auth.js` handlers file).

The relational store is Cloudflare D1 (SQLite).  Machine-level semantics
modelled here, taken from the engine the source runs on:

* `CREATE TABLE IF NOT EXISTS` is a no-op when the table already exists.
* `ALTER TABLE ... ADD COLUMN c` fails when column `c` already exists
  (duplicate column name) or when the table is missing; on fresh columns it
  backfills every existing row with the declared DEFAULT.
* `CHECK(x IN (...))` and `NOT NULL` violations make `.run()` throw; a
  statement that executes without error yields a result whose `success`
  field is `true`, even when an UPDATE matched zero rows.
* `GROUP_CONCAT` over a LEFT JOIN yields SQL NULL when there is no joined
  row, and otherwise the comma-joined non-null values in rowid
  (insertion) order.

Timestamps are modelled as a natural-number clock `now` held in the
database state; `CURRENT_TIMESTAMP` reads it.  Throwing JavaScript
functions are embedded with `Except String`; functions whose `try/catch`
swallows every error (only `initializeDatabase`) return plain values.
-/

namespace Greenlight

/-- One row of the `releases` table, with all columns of schema version 2.
`release_type` is stored in every row value; whether the column actually
exists in the live schema is tracked by `Db.hasReleaseType`. -/
structure ReleaseRow where
  id : Nat
  release_date : String
  status : String
  release_type : String
  explanation : Option String
  created_by : String
  created_at : Nat
  updated_by : Option String
  updated_at : Option Nat
  deleted_at : Option Nat
  deleted_by : Option String
deriving DecidableEq, Repr

/-- One row of the `excluded_tickets` table. -/
structure TicketRow where
  id : Nat
  release_id : Nat
  ticket_key : String
  ticket_summary : Option String
  ticket_url : Option String
  created_by : String
  created_at : Nat
deriving DecidableEq, Repr

/-- A ticket-detail record as passed to `createRelease` (the shape produced
by the JIRA lookup collaborator).  `key` is an `Option` because a malformed
element can carry a null key, which the `NOT NULL` constraint on
`excluded_tickets.ticket_key` then rejects at insert time. -/
structure Ticket where
  key : Option String
  summary : Option String
  url : Option String
deriving DecidableEq, Repr

/-- The release-field record passed to `createRelease`. -/
structure ReleaseInput where
  release_date : String
  status : String
  release_type : String
  explanation : Option String
deriving DecidableEq, Repr

/-- State of the D1 (SQLite) database: which structures exist, the stored
rows, the AUTOINCREMENT counters, and the current clock. -/
structure Db where
  releasesTableExists : Bool
  ticketsTableExists : Bool
  hasReleaseType : Bool
  releases : List ReleaseRow
  tickets : List TicketRow
  nextReleaseId : Nat
  nextTicketId : Nat
  now : Nat
deriving DecidableEq, Repr

/-- A database with no structures and no rows. -/
def emptyDb : Db :=
  { releasesTableExists := false
    ticketsTableExists := false
    hasReleaseType := false
    releases := []
    tickets := []
    nextReleaseId := 1
    nextTicketId := 1
    now := 0 }

/-- Combined durable state: the D1 database plus the `APP_STATE` KV entry
`DB_SCHEMA_VERSION` (`none` models an absent key). -/
structure St where
  db : Db
  kv : Option String
deriving DecidableEq, Repr

/-- Models `const CURRENT_SCHEMA_VERSION = 2` from `src/database.js`. -/
def CURRENT_SCHEMA_VERSION : Nat := 2

/-- Models `parseInt(s) || 0` for a nonnegative decimal string: the longest digit
prefix, or 0 when there is none (`parseInt` yields NaN, which `|| 0` maps
to 0). -/
def jsParseIntOr0 (s : String) : Nat :=
  let digits := s.data.takeWhile Char.isDigit
  if digits.isEmpty then 0
  else digits.foldl (fun acc c => acc * 10 + (c.toNat - 48)) 0

/-- The version read in `initializeDatabase`:
`parseInt(await env.APP_STATE.get('DB_SCHEMA_VERSION')) || 0`.
A missing key reads as null, hence 0. -/
def readVersion (kv : Option String) : Nat :=
  match kv with
  | none => 0
  | some s => jsParseIntOr0 s

/-- Models `createInitialSchema`: two `CREATE TABLE IF NOT EXISTS` statements.
A freshly created `releases` table has the version-1 columns only (no
`release_type`) and is empty with AUTOINCREMENT starting at 1; an existing
table is left untouched. -/
def createInitialSchema (db : Db) : Db :=
  let db1 :=
    if db.releasesTableExists then db
    else { db with releasesTableExists := true, hasReleaseType := false,
                   releases := [], nextReleaseId := 1 }
  if db1.ticketsTableExists then db1
  else { db1 with ticketsTableExists := true, tickets := [], nextTicketId := 1 }

/-- Models `applyMigrations`: for `currentVersion < 2`,
`ALTER TABLE releases ADD COLUMN release_type TEXT CHECK(...) NOT NULL DEFAULT 'FULL'`.
The ALTER throws when the table is missing or the column already exists;
on success every existing row is backfilled with the default FULL. -/
def applyMigrations (db : Db) (currentVersion : Nat) : Except String Db :=
  if currentVersion < 2 then
    if !db.releasesTableExists then
      Except.error "no such table: releases"
    else if db.hasReleaseType then
      Except.error "duplicate column name: release_type"
    else
      Except.ok { db with hasReleaseType := true,
                          releases := db.releases.map
                            (fun r => { r with release_type := "FULL" }) }
  else
    Except.ok db

/-- Models `initializeDatabase(db, env)`: reads the version once, creates the base
schema and writes version 1 when it reads 0, then applies migrations and
writes the target version; the surrounding `try/catch` converts any thrown
error into a `false` return, leaving the effects performed so far in
place. -/
def initializeDatabase (s : St) : Bool × St :=
  let currentVersion := readVersion s.kv
  let s1 :=
    if currentVersion = 0 then
      { db := createInitialSchema s.db, kv := some "1" }
    else s
  if currentVersion < CURRENT_SCHEMA_VERSION then
    match applyMigrations s1.db currentVersion with
    | Except.error _ => (false, s1)
    | Except.ok db2 => (true, { db := db2, kv := some (toString CURRENT_SCHEMA_VERSION) })
  else
    (true, s1)

/-- JavaScript `x || null` on an optional string: the empty string is falsy
and collapses to null. -/
def jsOrNull : Option String → Option String
  | some s => if s = "" then none else some s
  | none => none

/-- Models `GROUP_CONCAT` of the non-null values of a group, in rowid order:
SQL NULL (`none`) when the list is empty, else the comma-joined string. -/
def groupConcat (l : List String) : Option String :=
  match l with
  | [] => none
  | _ => some (String.intercalate "," l)

/-- The `excluded_tickets` rows joined to a release, in rowid order. -/
def ticketsFor (db : Db) (rid : Nat) : List TicketRow :=
  db.tickets.filter (fun t => t.release_id == rid)

/-- One row of the `SELECT r.*, GROUP_CONCAT(...) ... GROUP BY r.id`
result shape shared by `fetchRecentReleases` and `fetchReleaseById`. -/
structure ReleaseView where
  id : Nat
  release_date : String
  status : String
  release_type : String
  explanation : Option String
  created_by : String
  created_at : Nat
  updated_by : Option String
  updated_at : Option Nat
  deleted_at : Option Nat
  deleted_by : Option String
  excluded_tickets : Option String
  ticket_summaries : Option String
  ticket_urls : Option String
deriving DecidableEq, Repr

/-- Builds the joined/aggregated view of one release row. -/
def viewOf (db : Db) (r : ReleaseRow) : ReleaseView :=
  { id := r.id
    release_date := r.release_date
    status := r.status
    release_type := r.release_type
    explanation := r.explanation
    created_by := r.created_by
    created_at := r.created_at
    updated_by := r.updated_by
    updated_at := r.updated_at
    deleted_at := r.deleted_at
    deleted_by := r.deleted_by
    excluded_tickets := groupConcat ((ticketsFor db r.id).map (fun t => t.ticket_key))
    ticket_summaries := groupConcat ((ticketsFor db r.id).filterMap (fun t => t.ticket_summary))
    ticket_urls := groupConcat ((ticketsFor db r.id).filterMap (fun t => t.ticket_url)) }

/-- Models `ORDER BY r.created_at DESC`: row `a` precedes row `b` when its
creation time is at least that of `b`. -/
def createdDesc (a b : ReleaseRow) : Prop := b.created_at ≤ a.created_at

instance : DecidableRel createdDesc := fun a b => Nat.decLe b.created_at a.created_at

instance : IsTotal ReleaseRow createdDesc :=
  ⟨fun a b => (Nat.le_total b.created_at a.created_at).elim Or.inl Or.inr⟩

instance : IsTrans ReleaseRow createdDesc :=
  ⟨fun _ _ _ hab hbc => Nat.le_trans hbc hab⟩

/-- Models `fetchRecentReleases(db, limit)`: active (`deleted_at IS NULL`) rows,
grouped with their tickets, ordered by creation time descending, at most
`limit` rows.  Throws (rethrown by the source) when a table is missing. -/
def fetchRecentReleases (db : Db) (limit : Nat) : Except String (List ReleaseView) :=
  if !db.releasesTableExists || !db.ticketsTableExists then
    Except.error "no such table"
  else
    Except.ok
      (((List.insertionSort createdDesc
          (db.releases.filter (fun r => r.deleted_at == none))).take limit).map
        (viewOf db))

/-- Models `fetchReleaseById(db, releaseId)`: the row with the given id (no
delete-state filter) joined with its tickets, or null when no row
matches. -/
def fetchReleaseById (db : Db) (rid : Nat) : Except String (Option ReleaseView) :=
  if !db.releasesTableExists || !db.ticketsTableExists then
    Except.error "no such table"
  else
    Except.ok ((db.releases.find? (fun r => r.id == rid)).map (viewOf db))

/-- The parent INSERT of `createRelease`:
`INSERT INTO releases (release_date, status, release_type, explanation, created_by)`
with `release.explanation || null` bound for the explanation.  Throws on a
missing table, a missing `release_type` column, or a CHECK-constraint
violation on `status` or `release_type`; on success returns the new state
and `last_insert_rowid()`. -/
def insertReleaseRow (db : Db) (rel : ReleaseInput) (u : String) :
    Except String (Db × Nat) :=
  if !db.releasesTableExists then
    Except.error "no such table: releases"
  else if !db.hasReleaseType then
    Except.error "table releases has no column named release_type"
  else if !(rel.status == "GO" || rel.status == "NO_GO") then
    Except.error "CHECK constraint failed: status"
  else if !(rel.release_type == "FULL" || rel.release_type == "HOTFIX") then
    Except.error "CHECK constraint failed: release_type"
  else
    Except.ok
      ({ db with
          releases := db.releases ++
            [{ id := db.nextReleaseId
               release_date := rel.release_date
               status := rel.status
               release_type := rel.release_type
               explanation := jsOrNull rel.explanation
               created_by := u
               created_at := db.now
               updated_by := none
               updated_at := none
               deleted_at := none
               deleted_by := none }]
          nextReleaseId := db.nextReleaseId + 1 },
       db.nextReleaseId)

/-- One child INSERT into `excluded_tickets`; throws when the table is
missing or `ticket_key` is null (`NOT NULL` constraint). -/
def insertTicketRow (db : Db) (rid : Nat) (t : Ticket) (u : String) :
    Except String Db :=
  if !db.ticketsTableExists then
    Except.error "no such table: excluded_tickets"
  else
    match t.key with
    | none => Except.error "NOT NULL constraint failed: excluded_tickets.ticket_key"
    | some k =>
        Except.ok
          { db with
              tickets := db.tickets ++
                [{ id := db.nextTicketId
                   release_id := rid
                   ticket_key := k
                   ticket_summary := t.summary
                   ticket_url := t.url
                   created_by := u
                   created_at := db.now }]
              nextTicketId := db.nextTicketId + 1 }

/-- The sequential `for (const ticket of tickets)` loop of `createRelease`:
inserts children one at a time; on the first failure the loop stops, the
children inserted so far remain, and the error is reported. -/
def insertChildren (db : Db) (rid : Nat) (u : String) :
    List Ticket → Db × Option String
  | [] => (db, none)
  | t :: ts =>
      match insertTicketRow db rid t u with
      | Except.error e => (db, some e)
      | Except.ok db1 => insertChildren db1 rid u ts

/-- Models `createRelease(db, release, tickets, userEmail)`: parent insert, read of
`last_insert_rowid()`, child inserts, then `fetchReleaseById`; the
`catch` rethrows, so every failure propagates and every effect performed
before the failure remains. -/
def createRelease (db : Db) (rel : ReleaseInput) (tickets : List Ticket)
    (u : String) : Except String (Option ReleaseView) × Db :=
  match insertReleaseRow db rel u with
  | Except.error e => (Except.error e, db)
  | Except.ok (db1, rid) =>
      -- result.success is true for the successfully executed INSERT, so the
      -- `if (!result.success) throw` guard does not fire on this path.
      match insertChildren db1 rid u tickets with
      | (db2, some e) => (Except.error e, db2)
      | (db2, none) =>
          match fetchReleaseById db2 rid with
          | Except.error e => (Except.error e, db2)
          | Except.ok v => (Except.ok v, db2)

/-- An INSERT into `releases` that does not mention `release_type`
(the shape used before schema version 2): the column, when present, takes
its declared DEFAULT, namely FULL. -/
def insertReleaseRowDefaultType (db : Db) (date status : String)
    (explanation : Option String) (u : String) : Except String (Db × Nat) :=
  if !db.releasesTableExists then
    Except.error "no such table: releases"
  else if !(status == "GO" || status == "NO_GO") then
    Except.error "CHECK constraint failed: status"
  else
    Except.ok
      ({ db with
          releases := db.releases ++
            [{ id := db.nextReleaseId
               release_date := date
               status := status
               release_type := "FULL"
               explanation := explanation
               created_by := u
               created_at := db.now
               updated_by := none
               updated_at := none
               deleted_at := none
               deleted_by := none }]
          nextReleaseId := db.nextReleaseId + 1 },
       db.nextReleaseId)

/-- Models `deleteRelease(db, releaseId, userEmail)`:
`UPDATE releases SET deleted_at = CURRENT_TIMESTAMP, deleted_by = ? WHERE id = ? AND deleted_at IS NULL`,
returning `result.success`.  The D1 result's `success` field is true
whenever the statement executes without throwing, even when zero rows
matched the WHERE clause. -/
def deleteRelease (db : Db) (rid : Nat) (u : String) :
    Except String Bool × Db :=
  if !db.releasesTableExists then
    (Except.error "no such table: releases", db)
  else
    (Except.ok true,
     { db with
         releases := db.releases.map (fun r =>
           if r.id = rid ∧ r.deleted_at = none then
             { r with deleted_at := some db.now, deleted_by := some u }
           else r) })

/-- What a route handler returns: a rendered page over release views, or
the generic error block produced by its `catch`. -/
inductive HandlerOutcome where
  | page (rows : List ReleaseView)
  | errorPage (msg : String)
deriving DecidableEq, Repr

/-- Models `handleGetReleases`: awaits `initializeDatabase` but discards its
boolean result, then fetches and renders the recent releases; only a
thrown error reaches the `catch` and produces the error block. -/
def handleGetReleases (s : St) : HandlerOutcome × St :=
  let s1 := (initializeDatabase s).2
  match fetchRecentReleases s1.db 10 with
  | Except.ok rows => (HandlerOutcome.page rows, s1)
  | Except.error e => (HandlerOutcome.errorPage e, s1)

/-! ## Concrete states used by witnesses and counterexamples -/

/-- The database produced by a successful `initializeDatabase` run starting
from nothing: both tables, the `release_type` column, no rows. -/
def dbInit : Db :=
  { emptyDb with releasesTableExists := true, ticketsTableExists := true,
                 hasReleaseType := true }

/-- A well-formed release input, as the create handler would pass it. -/
def sampleInput : ReleaseInput :=
  { release_date := "2024-06-02", status := "GO", release_type := "FULL",
    explanation := some "why" }

/-- The initialized database after creating one release (id 1) with no
tickets. -/
def dbOneActive : Db := (createRelease dbInit sampleInput [] "a@x.com").2

/-- The database `dbOneActive` after soft-deleting release 1. -/
def dbOneDeleted : Db := (deleteRelease dbOneActive 1 "root@x.com").2

/-- A malformed ticket-detail record carrying a null key. -/
def badTicket : Ticket := { key := none, summary := none, url := none }

/-- A state in which the recorded schema version is 1 but the
`release_type` column already exists (reachable when a prior run applied
the migration but failed to persist version 2). -/
def stuckSt : St := { db := dbInit, kv := some "1" }

/-! ## C1: what `deleteRelease` returns -/

/-- C1 (counterexample): calling `deleteRelease` a second time on the same
id returns `true`, not the claimed `changed = false` — the source returns
the driver's statement-success flag, which is true even when the guarded
UPDATE matched zero rows. -/
theorem deleteRelease_second_call_returns_true_cex :
    (deleteRelease ((deleteRelease dbOneActive 1 "root@x.com").2) 1 "root@x.com").1
      = Except.ok true ∧
    (deleteRelease dbInit 99 "root@x.com").1 = Except.ok true := by
  constructor <;> rfl

/-- The row update applied by the guarded UPDATE of `deleteRelease`. -/
def softDeleteRow (rid : Nat) (now : Nat) (u : String) (r : ReleaseRow) : ReleaseRow :=
  if r.id = rid ∧ r.deleted_at = none then
    { r with deleted_at := some now, deleted_by := some u }
  else r

/-- Unfolding equation for `deleteRelease` when the table exists. -/
theorem deleteRelease_eq (db : Db) (rid : Nat) (u : String)
    (hT : db.releasesTableExists = true) :
    deleteRelease db rid u
      = (Except.ok true,
         { db with releases := db.releases.map (softDeleteRow rid db.now u) }) := by
  simp [deleteRelease, hT, softDeleteRow]

/-- Applying the soft-delete row update twice is the same as applying it
once: a row it touched has a non-null `deleted_at` and fails the guard. -/
theorem softDeleteRow_idem (rid now now2 : Nat) (u u2 : String) (r : ReleaseRow) :
    softDeleteRow rid now2 u2 (softDeleteRow rid now u r) = softDeleteRow rid now u r := by
  by_cases hc : r.id = rid ∧ r.deleted_at = none
  · simp [softDeleteRow, hc]
  · simp [softDeleteRow, hc]

/-- Calling `deleteRelease` twice with the same id leaves the state of the
first call unchanged and still reports success. -/
theorem deleteRelease_twice (db : Db) (rid : Nat) (u : String)
    (hT : db.releasesTableExists = true) :
    deleteRelease ((deleteRelease db rid u).2) rid u
      = (Except.ok true, (deleteRelease db rid u).2) := by
  rcases db with ⟨rt, tt, ht, rel, tks, nri, nti, nw⟩
  subst hT
  show deleteRelease ((Except.ok true,
      ({ releasesTableExists := true, ticketsTableExists := tt, hasReleaseType := ht,
         releases := rel.map (softDeleteRow rid nw u), tickets := tks,
         nextReleaseId := nri, nextTicketId := nti, now := nw } : Db)).2) rid u = _
  rw [deleteRelease_eq _ rid u rfl]
  show (Except.ok true,
      ({ releasesTableExists := true, ticketsTableExists := tt, hasReleaseType := ht,
         releases := (rel.map (softDeleteRow rid nw u)).map (softDeleteRow rid nw u),
         tickets := tks, nextReleaseId := nri, nextTicketId := nti, now := nw } : Db)) = _
  have hidem : (rel.map (softDeleteRow rid nw u)).map (softDeleteRow rid nw u)
      = rel.map (softDeleteRow rid nw u) := by
    rw [List.map_map]
    apply List.map_congr_left
    intro r _
    exact softDeleteRow_idem rid nw nw u u r
  rw [hidem]
  rfl

/-- C1 (amended): `deleteRelease` sets the delete markers on an active
matching row and is a data-level no-op on a second call or a nonexistent
id, never throwing in either case; but in every case it returns the
statement-success flag `true`, not whether a row was changed. -/
theorem deleteRelease_reports_statement_success (db : Db) (rid : Nat) (u : String)
    (hT : db.releasesTableExists = true) :
    (deleteRelease db rid u).1 = Except.ok true ∧
    (∀ r ∈ db.releases, r.id = rid → r.deleted_at = none →
      ({ r with deleted_at := some db.now, deleted_by := some u } : ReleaseRow)
        ∈ ((deleteRelease db rid u).2).releases) ∧
    deleteRelease ((deleteRelease db rid u).2) rid u
      = (Except.ok true, (deleteRelease db rid u).2) ∧
    ((∀ r ∈ db.releases, r.id ≠ rid) → (deleteRelease db rid u).2 = db) := by
  have hX : (deleteRelease db rid u).2
      = { db with releases := db.releases.map (softDeleteRow rid db.now u) } := by
    rw [deleteRelease_eq db rid u hT]
  refine ⟨by rw [deleteRelease_eq db rid u hT], ?_,
          deleteRelease_twice db rid u hT, ?_⟩
  · intro r hr hid hdel
    rw [hX]
    have h2 : ({ r with deleted_at := some db.now, deleted_by := some u } : ReleaseRow)
        = softDeleteRow rid db.now u r := by
      simp [softDeleteRow, hid, hdel]
    rw [h2]
    exact List.mem_map_of_mem _ hr
  · intro hnone
    rw [hX]
    have hid : db.releases.map (softDeleteRow rid db.now u) = db.releases := by
      rw [show db.releases.map (softDeleteRow rid db.now u)
            = db.releases.map id from ?_, List.map_id]
      apply List.map_congr_left
      intro r hr
      have hcond : ¬(r.id = rid ∧ r.deleted_at = none) := fun hc => hnone r hr hc.1
      simp [softDeleteRow, hcond]
    rw [hid]

/-- C1 (witness for the amended theorem), at a database holding one active
release with id 1. -/
theorem deleteRelease_reports_statement_success_witness :
    (deleteRelease dbOneActive 1 "root@x.com").1 = Except.ok true :=
  (deleteRelease_reports_statement_success dbOneActive 1 "root@x.com" rfl).1

/-! ## C4: idempotency of `initializeDatabase` -/

/-- C4 (counterexample): from the starting state `stuckSt` (version marker
1 with the `release_type` column already present) the run is not a no-op
that returns `true`: the ALTER TABLE step fails with a duplicate-column
error both times, so the second run returns `false`. -/
theorem initializeDatabase_second_run_fails_cex :
    (initializeDatabase ((initializeDatabase stuckSt).2)).1 = false := by
  rfl

/-- C4 (amended): whenever a run of `initializeDatabase` succeeds, an
immediately following run is a no-op: it returns `true` and leaves the
whole state — schema structures and external version — unchanged. -/
theorem initializeDatabase_idempotent_after_success (s : St)
    (h : (initializeDatabase s).1 = true) :
    initializeDatabase ((initializeDatabase s).2) = (true, (initializeDatabase s).2) := by
  by_cases hv : readVersion s.kv < CURRENT_SCHEMA_VERSION
  · -- a migration ran; success means it succeeded and version 2 was written
    set s1 := if readVersion s.kv = 0 then
        ({ db := createInitialSchema s.db, kv := some "1" } : St) else s with hs1
    have hinit : initializeDatabase s
        = match applyMigrations s1.db (readVersion s.kv) with
          | Except.error _ => (false, s1)
          | Except.ok db2 =>
              (true, { db := db2, kv := some (toString CURRENT_SCHEMA_VERSION) }) := by
      simp only [initializeDatabase, hs1, if_pos hv]
    rcases hm : applyMigrations s1.db (readVersion s.kv) with e | db2
    · rw [hinit, hm] at h
      simp at h
    · rw [hinit, hm]
      have : readVersion (some (toString CURRENT_SCHEMA_VERSION)) = 2 := by rfl
      simp only [initializeDatabase, this, CURRENT_SCHEMA_VERSION]
      rfl
  · -- no migration needed: the run returns the state unchanged both times
    have hv0 : readVersion s.kv ≠ 0 := by
      intro h0
      exact hv (by simp [h0, CURRENT_SCHEMA_VERSION])
    have hinit : initializeDatabase s = (true, s) := by
      simp only [initializeDatabase, if_neg hv0, if_neg hv]
    rw [hinit]
    simp only [initializeDatabase, if_neg hv0, if_neg hv]

/-- C4 (witness for the amended theorem): the run from the fresh state
succeeds, and the follow-up run is a no-op on the resulting state. -/
theorem initializeDatabase_idempotent_after_success_witness :
    initializeDatabase ((initializeDatabase { db := emptyDb, kv := none }).2)
      = (true, (initializeDatabase { db := emptyDb, kv := none }).2) :=
  initializeDatabase_idempotent_after_success { db := emptyDb, kv := none } rfl
/-! ## C3: one run from version 0 reaches the target schema -/

/-- C3: starting from external version 0 (key absent or unparseable) and an
untouched database, one run of `initializeDatabase` succeeds and leaves the
version marker at "2" (which reads back as the target version), both
tables existing and the `release_type` column present; on the resulting
schema an insert that does not mention `release_type` stores FULL, and an
insert supplying a value outside the FULL/HOTFIX set is rejected. -/
theorem initializeDatabase_from_version_zero (kv : Option String)
    (h : readVersion kv = 0) :
    initializeDatabase { db := emptyDb, kv := kv }
        = (true, { db := dbInit, kv := some "2" }) ∧
    readVersion (some "2") = CURRENT_SCHEMA_VERSION ∧
    dbInit.releasesTableExists = true ∧
    dbInit.ticketsTableExists = true ∧
    dbInit.hasReleaseType = true ∧
    (∀ (date : String) (st : String) (expl : Option String) (u : String),
      st = "GO" ∨ st = "NO_GO" →
      ∃ db2, insertReleaseRowDefaultType dbInit date st expl u
          = Except.ok (db2, dbInit.nextReleaseId) ∧
        ∃ r, r ∈ db2.releases ∧ r.id = dbInit.nextReleaseId ∧ r.release_type = "FULL") ∧
    (∀ (rel : ReleaseInput) (u : String),
      rel.release_type ≠ "FULL" → rel.release_type ≠ "HOTFIX" →
      ∃ e, insertReleaseRow dbInit rel u = Except.error e) := by
  refine ⟨?_, rfl, rfl, rfl, rfl, ?_, ?_⟩
  · simp only [initializeDatabase, h]
    rfl
  · intro date st expl u hst
    rcases hst with rfl | rfl
    · exact ⟨_, rfl, _, List.mem_singleton_self _, rfl, rfl⟩
    · exact ⟨_, rfl, _, List.mem_singleton_self _, rfl, rfl⟩
  · intro rel u h1 h2
    by_cases hs : (rel.status == "GO" || rel.status == "NO_GO") = true
    · refine ⟨"CHECK constraint failed: release_type", ?_⟩
      have ht : (rel.release_type == "FULL" || rel.release_type == "HOTFIX") = false := by
        simp [h1, h2]
      simp [insertReleaseRow, dbInit, emptyDb, hs, ht]
    · refine ⟨"CHECK constraint failed: status", ?_⟩
      simp [insertReleaseRow, dbInit, emptyDb, hs]

/-- C3 (witness): with the key absent. -/
theorem initializeDatabase_from_version_zero_witness :
    initializeDatabase { db := emptyDb, kv := none }
      = (true, { db := dbInit, kv := some "2" }) :=
  (initializeDatabase_from_version_zero none rfl).1

/-! ## C8: fetch by id ignores delete state and maps not-found to null -/

/-- C8: `fetchReleaseById` returns the row whose id matches together with
its aggregated tickets, with no condition on its delete state (the first
conjunct applies to soft-deleted rows just as to active ones); when no row
matches it returns an explicit `none`, not an error. -/
theorem fetchReleaseById_spec (db : Db) (rid : Nat)
    (hR : db.releasesTableExists = true) (hTk : db.ticketsTableExists = true) :
    (∀ r, db.releases.find? (fun x => x.id == rid) = some r →
      fetchReleaseById db rid = Except.ok (some (viewOf db r))) ∧
    ((∀ r ∈ db.releases, r.id ≠ rid) → fetchReleaseById db rid = Except.ok none) := by
  constructor
  · intro r hr
    simp [fetchReleaseById, hR, hTk, hr]
  · intro hnone
    have hfind : db.releases.find? (fun x => x.id == rid) = none := by
      rw [List.find?_eq_none]
      intro x hx
      simp [hnone x hx]
    simp [fetchReleaseById, hR, hTk, hfind]

/-- C8 (witness): the release soft-deleted in `dbOneDeleted` is still
returned by `fetchReleaseById`, delete markers included. -/
theorem fetchReleaseById_spec_witness :
    fetchReleaseById dbOneDeleted 1
      = Except.ok (some (viewOf dbOneDeleted
          { id := 1, release_date := "2024-06-02", status := "GO",
            release_type := "FULL", explanation := some "why",
            created_by := "a@x.com", created_at := 0, updated_by := none,
            updated_at := none, deleted_at := some 0,
            deleted_by := some "root@x.com" })) :=
  (fetchReleaseById_spec dbOneDeleted 1 rfl rfl).1 _ rfl

/-! ## C10: the frame of `deleteRelease` -/

/-- C10: `deleteRelease` touches nothing but the matching active row:
tickets, schema flags, counters and clock are unchanged, the number of
release rows is unchanged, every row that is not an active row with the
given id is unchanged at its position, the touched row changes only its
`deleted_at` and `deleted_by`, every other column is preserved at every
position, and markers already set are never overwritten. -/
theorem deleteRelease_frame (db : Db) (rid : Nat) (u : String)
    (hT : db.releasesTableExists = true) :
    ((deleteRelease db rid u).2).tickets = db.tickets ∧
    ((deleteRelease db rid u).2).releasesTableExists = db.releasesTableExists ∧
    ((deleteRelease db rid u).2).ticketsTableExists = db.ticketsTableExists ∧
    ((deleteRelease db rid u).2).hasReleaseType = db.hasReleaseType ∧
    ((deleteRelease db rid u).2).nextReleaseId = db.nextReleaseId ∧
    ((deleteRelease db rid u).2).nextTicketId = db.nextTicketId ∧
    ((deleteRelease db rid u).2).now = db.now ∧
    ((deleteRelease db rid u).2).releases.length = db.releases.length ∧
    ∀ (i : Nat) (h1 : i < db.releases.length)
      (h2 : i < ((deleteRelease db rid u).2).releases.length),
      (¬((db.releases[i]).id = rid ∧ (db.releases[i]).deleted_at = none) →
        ((deleteRelease db rid u).2).releases[i] = db.releases[i]) ∧
      ((db.releases[i]).id = rid → (db.releases[i]).deleted_at = none →
        ((deleteRelease db rid u).2).releases[i]
          = { db.releases[i] with deleted_at := some db.now, deleted_by := some u }) ∧
      (((deleteRelease db rid u).2).releases[i]).id = (db.releases[i]).id ∧
      (((deleteRelease db rid u).2).releases[i]).release_date = (db.releases[i]).release_date ∧
      (((deleteRelease db rid u).2).releases[i]).status = (db.releases[i]).status ∧
      (((deleteRelease db rid u).2).releases[i]).release_type = (db.releases[i]).release_type ∧
      (((deleteRelease db rid u).2).releases[i]).explanation = (db.releases[i]).explanation ∧
      (((deleteRelease db rid u).2).releases[i]).created_by = (db.releases[i]).created_by ∧
      (((deleteRelease db rid u).2).releases[i]).created_at = (db.releases[i]).created_at ∧
      ∀ t, (db.releases[i]).deleted_at = some t →
        (((deleteRelease db rid u).2).releases[i]).deleted_at = some t ∧
        (((deleteRelease db rid u).2).releases[i]).deleted_by = (db.releases[i]).deleted_by := by
  have hX : (deleteRelease db rid u).2
      = { db with releases := db.releases.map (softDeleteRow rid db.now u) } := by
    rw [deleteRelease_eq db rid u hT]
  refine ⟨by rw [hX], by rw [hX], by rw [hX], by rw [hX], by rw [hX], by rw [hX],
          by rw [hX], by rw [hX]; exact List.length_map _ _, ?_⟩
  intro i h1 h2
  have hg : ((deleteRelease db rid u).2).releases[i]
      = softDeleteRow rid db.now u (db.releases[i]) := by
    simp only [hX, List.getElem_map]
  rw [hg]
  by_cases hc : (db.releases[i]).id = rid ∧ (db.releases[i]).deleted_at = none
  · obtain ⟨hcid, hcdel⟩ := hc
    have hrow : softDeleteRow rid db.now u (db.releases[i])
        = { db.releases[i] with deleted_at := some db.now, deleted_by := some u } := by
      simp [softDeleteRow, hcid, hcdel]
    rw [hrow]
    refine ⟨fun hn => absurd ⟨hcid, hcdel⟩ hn, fun _ _ => rfl,
            rfl, rfl, rfl, rfl, rfl, rfl, rfl, fun t ht => ?_⟩
    rw [hcdel] at ht
    exact Option.noConfusion ht
  · have hrow : softDeleteRow rid db.now u (db.releases[i]) = db.releases[i] := by
      simp [softDeleteRow, hc]
    rw [hrow]
    exact ⟨fun _ => rfl, fun hid hdel => absurd ⟨hid, hdel⟩ hc,
           rfl, rfl, rfl, rfl, rfl, rfl, rfl, fun t ht => ⟨ht, rfl⟩⟩

/-- C10 (witness): the frame theorem applied to the one-row database,
showing the ticket table untouched by the delete. -/
theorem deleteRelease_frame_witness :
    ((deleteRelease dbOneActive 1 "root@x.com").2).tickets = dbOneActive.tickets :=
  (deleteRelease_frame dbOneActive 1 "root@x.com" rfl).1

/-! ## Helper lemmas about the insert operations -/

/-- The release row written by the parent INSERT of `createRelease`. -/
def newReleaseRow (db : Db) (rel : ReleaseInput) (u : String) : ReleaseRow :=
  { id := db.nextReleaseId
    release_date := rel.release_date
    status := rel.status
    release_type := rel.release_type
    explanation := jsOrNull rel.explanation
    created_by := u
    created_at := db.now
    updated_by := none
    updated_at := none
    deleted_at := none
    deleted_by := none }

/-- The database after the parent INSERT of `createRelease` succeeded. -/
def parentInserted (db : Db) (rel : ReleaseInput) (u : String) : Db :=
  { db with
      releases := db.releases ++ [newReleaseRow db rel u]
      nextReleaseId := db.nextReleaseId + 1 }

/-- Unfolding equation for a parent INSERT whose constraints are all
satisfied. -/
theorem insertReleaseRow_ok (db : Db) (rel : ReleaseInput) (u : String)
    (hR : db.releasesTableExists = true) (hC : db.hasReleaseType = true)
    (hs : rel.status = "GO" ∨ rel.status = "NO_GO")
    (hty : rel.release_type = "FULL" ∨ rel.release_type = "HOTFIX") :
    insertReleaseRow db rel u
      = Except.ok (parentInserted db rel u, db.nextReleaseId) := by
  have hsb : (rel.status == "GO" || rel.status == "NO_GO") = true := by
    rcases hs with h | h <;> simp [h]
  have htyb : (rel.release_type == "FULL" || rel.release_type == "HOTFIX") = true := by
    rcases hty with h | h <;> simp [h]
  simp [insertReleaseRow, hR, hC, hsb, htyb, newReleaseRow, parentInserted]

/-- A successful child INSERT appends exactly one ticket row built from a
non-null key and bumps the ticket counter. -/
theorem insertTicketRow_ok (db : Db) (rid : Nat) (t : Ticket) (u : String) (db1 : Db)
    (h : insertTicketRow db rid t u = Except.ok db1) :
    ∃ k, t.key = some k ∧
      db1 = { db with
              tickets := db.tickets ++
                [{ id := db.nextTicketId, release_id := rid, ticket_key := k,
                   ticket_summary := t.summary, ticket_url := t.url,
                   created_by := u, created_at := db.now }]
              nextTicketId := db.nextTicketId + 1 } := by
  by_cases hT : (!db.ticketsTableExists) = true
  · rw [insertTicketRow, if_pos hT] at h
    exact Except.noConfusion h
  · rw [insertTicketRow, if_neg hT] at h
    cases hk : t.key with
    | none =>
        rw [hk] at h
        exact Except.noConfusion h
    | some k =>
        rw [hk] at h
        injection h with h
        exact ⟨k, rfl, h.symm⟩

/-- The child-insert loop never touches the `releases` table. -/
theorem insertChildren_releases (ts : List Ticket) (db : Db) (rid : Nat) (u : String) :
    ((insertChildren db rid u ts).1).releases = db.releases := by
  induction ts generalizing db with
  | nil => rfl
  | cons t ts ih =>
      simp only [insertChildren]
      cases h : insertTicketRow db rid t u with
      | error e => rfl
      | ok db1 =>
          obtain ⟨k, _, rfl⟩ := insertTicketRow_ok db rid t u db1 h
          exact ih _

/-- A ticket list containing a null key makes the child-insert loop stop
with an error. -/
theorem insertChildren_error_of_badkey (ts : List Ticket) (db : Db) (rid : Nat)
    (u : String) (hbad : ∃ t ∈ ts, t.key = none) :
    ∃ e, (insertChildren db rid u ts).2 = some e := by
  induction ts generalizing db with
  | nil =>
      obtain ⟨t, ht, _⟩ := hbad
      exact absurd ht (List.not_mem_nil t)
  | cons t ts ih =>
      simp only [insertChildren]
      cases h : insertTicketRow db rid t u with
      | error e => exact ⟨e, rfl⟩
      | ok db1 =>
          obtain ⟨k, hk, rfl⟩ := insertTicketRow_ok db rid t u db1 h
          obtain ⟨tb, htb, htbk⟩ := hbad
          rcases List.mem_cons.mp htb with rfl | htb2
          · rw [hk] at htbk
            exact Option.noConfusion htbk
          · exact ih _ ⟨tb, htb2, htbk⟩

/-! ## C2: no transaction around the parent and child inserts -/

/-- C2 (counterexample): creating a release with one malformed ticket (null
key) surfaces the constraint error, yet the parent release row (id 1) is
left behind with no tickets at all — an orphaned parent, so the inserts
are not a single atomic unit. -/
theorem createRelease_orphaned_parent_cex :
    (createRelease dbInit sampleInput [badTicket] "a@x.com").1
      = Except.error "NOT NULL constraint failed: excluded_tickets.ticket_key" ∧
    ((createRelease dbInit sampleInput [badTicket] "a@x.com").2).releases.map
        (fun r => r.id) = [1] ∧
    ticketsFor ((createRelease dbInit sampleInput [badTicket] "a@x.com").2) 1 = [] := by
  refine ⟨rfl, rfl, rfl⟩

/-- C2 (amended): when a child insert fails after the parent insert
succeeded, `createRelease` does surface an error to the caller, but the
store keeps the freshly inserted parent release row (there is no
transaction to roll it back). -/
theorem createRelease_child_failure_keeps_parent (db : Db) (rel : ReleaseInput)
    (tickets : List Ticket) (u : String)
    (hR : db.releasesTableExists = true) (hC : db.hasReleaseType = true)
    (hs : rel.status = "GO" ∨ rel.status = "NO_GO")
    (hty : rel.release_type = "FULL" ∨ rel.release_type = "HOTFIX")
    (hbad : ∃ t ∈ tickets, t.key = none) :
    (∃ e, (createRelease db rel tickets u).1 = Except.error e) ∧
    ∃ r ∈ ((createRelease db rel tickets u).2).releases,
      r.id = db.nextReleaseId ∧ r.created_by = u := by
  have hins := insertReleaseRow_ok db rel u hR hC hs hty
  obtain ⟨e, he⟩ := insertChildren_error_of_badkey tickets (parentInserted db rel u)
    db.nextReleaseId u hbad
  rcases hic : insertChildren (parentInserted db rel u) db.nextReleaseId u tickets
    with ⟨db2, err⟩
  have herr : err = some e := by rw [hic] at he; exact he
  subst herr
  have hcr : createRelease db rel tickets u = (Except.error e, db2) := by
    simp only [createRelease, hins, hic]
  rw [hcr]
  refine ⟨⟨e, rfl⟩, newReleaseRow db rel u, ?_, rfl, rfl⟩
  have hrel : db2.releases = (parentInserted db rel u).releases := by
    have h2 := insertChildren_releases tickets (parentInserted db rel u) db.nextReleaseId u
    rw [hic] at h2
    exact h2
  rw [hrel]
  exact List.mem_append_right _ (List.mem_singleton_self _)

/-- C2 (witness for the amended theorem). -/
theorem createRelease_child_failure_keeps_parent_witness :
    ∃ e, (createRelease dbInit sampleInput [badTicket] "a@x.com").1
      = Except.error e :=
  (createRelease_child_failure_keeps_parent dbInit sampleInput [badTicket] "a@x.com"
    rfl rfl (Or.inl rfl) (Or.inl rfl)
    ⟨badTicket, List.mem_singleton_self _, rfl⟩).1
/-- The ticket row written by one successful child INSERT for key `k`. -/
def childRow (db : Db) (rid : Nat) (k : String) (t : Ticket) (u : String) : TicketRow :=
  { id := db.nextTicketId
    release_id := rid
    ticket_key := k
    ticket_summary := t.summary
    ticket_url := t.url
    created_by := u
    created_at := db.now }

/-- When the ticket table exists and every key is non-null, the child-insert
loop succeeds and appends one row per ticket, in order, all attributed to
the given release id and user. -/
theorem insertChildren_ok (ts : List Ticket) (db : Db) (rid : Nat) (u : String)
    (hT : db.ticketsTableExists = true) (hK : ∀ t ∈ ts, t.key ≠ none) :
    ∃ rows : List TicketRow,
      insertChildren db rid u ts
        = ({ db with
              tickets := db.tickets ++ rows
              nextTicketId := db.nextTicketId + rows.length }, none) ∧
      rows.map (fun x => x.ticket_key) = ts.filterMap (fun t => t.key) ∧
      rows.filterMap (fun x => x.ticket_summary) = ts.filterMap (fun t => t.summary) ∧
      rows.filterMap (fun x => x.ticket_url) = ts.filterMap (fun t => t.url) ∧
      rows.length = ts.length ∧
      ∀ x ∈ rows, x.release_id = rid ∧ x.created_by = u ∧ x.created_at = db.now := by
  induction ts generalizing db with
  | nil =>
      refine ⟨[], ?_, rfl, rfl, rfl, rfl, fun x hx => absurd hx (List.not_mem_nil x)⟩
      show (db, none) = _
      simp
  | cons t ts ih =>
      cases hk : t.key with
      | none => exact absurd hk (hK t (List.mem_cons_self t ts))
      | some k =>
          have hstep : insertTicketRow db rid t u
              = Except.ok { db with
                  tickets := db.tickets ++ [childRow db rid k t u]
                  nextTicketId := db.nextTicketId + 1 } := by
            simp [insertTicketRow, hT, hk, childRow]
          obtain ⟨rows1, hrec, hkeys, hsum, hurl, hlen, hmem⟩ :=
            ih { db with
                  tickets := db.tickets ++ [childRow db rid k t u]
                  nextTicketId := db.nextTicketId + 1 }
              hT (fun t2 ht2 => hK t2 (List.mem_cons_of_mem t ht2))
          refine ⟨childRow db rid k t u :: rows1, ?_, ?_, ?_, ?_, ?_, ?_⟩
          · simp only [insertChildren, hstep]
            rw [hrec]
            have h1 : (db.tickets ++ [childRow db rid k t u]) ++ rows1
                = db.tickets ++ (childRow db rid k t u :: rows1) := by
              simp
            have h2 : db.nextTicketId + 1 + rows1.length
                = db.nextTicketId + (rows1.length + 1) := by
              omega
            show ({ db with
                tickets := (db.tickets ++ [childRow db rid k t u]) ++ rows1
                nextTicketId := db.nextTicketId + 1 + rows1.length }, none) = _
            rw [h1, h2]
            rfl
          · simp [childRow, List.filterMap_cons, hk, hkeys]
          · cases hsm : t.summary <;>
              simp [childRow, List.filterMap_cons, hsm, hsum]
          · cases hu : t.url <;>
              simp [childRow, List.filterMap_cons, hu, hurl]
          · simp [hlen]
          · intro x hx
            rcases List.mem_cons.mp hx with rfl | hx2
            · exact ⟨rfl, rfl, rfl⟩
            · exact hmem x hx2
/-! ## C6: create followed by fetch round-trips the submitted data -/

/-- C6 (counterexample): submitting an empty-string explanation does not
round-trip: `release.explanation || null` collapses the empty string to
null before the INSERT, so the fetched record's explanation is null, not
the submitted empty string. -/
theorem createRelease_empty_explanation_cex :
    ({ release_date := "2024-06-02", status := "NO_GO", release_type := "FULL",
       explanation := some "" } : ReleaseInput).explanation = some "" ∧
    (createRelease dbInit
        { release_date := "2024-06-02", status := "NO_GO", release_type := "FULL",
          explanation := some "" } [] "a@x.com").1
      = Except.ok (some
          { id := 1, release_date := "2024-06-02", status := "NO_GO",
            release_type := "FULL", explanation := none, created_by := "a@x.com",
            created_at := 0, updated_by := none, updated_at := none,
            deleted_at := none, deleted_by := none, excluded_tickets := none,
            ticket_summaries := none, ticket_urls := none }) := by
  exact ⟨rfl, rfl⟩

/-- C6 (amended): for valid inputs over a current schema, `createRelease`
followed by `fetchReleaseById` returns a record with a fresh id, all
submitted fields equal to the inputs except that the explanation is the
`|| null` normalization of the submitted one (null and nonempty strings
round-trip verbatim; the empty string becomes null), `created_at`
populated from the statement clock, delete markers null, `created_by`
equal to the acting user on the parent and on every child ticket row, and
the aggregated ticket fields listing exactly the K submitted tickets in
submission order; K = 0 yields null aggregate fields (an empty ticket
collection), not an error. -/
theorem createRelease_then_fetch_roundtrip (db : Db) (rel : ReleaseInput)
    (tickets : List Ticket) (u : String)
    (hR : db.releasesTableExists = true) (hTk : db.ticketsTableExists = true)
    (hC : db.hasReleaseType = true)
    (hs : rel.status = "GO" ∨ rel.status = "NO_GO")
    (hty : rel.release_type = "FULL" ∨ rel.release_type = "HOTFIX")
    (hK : ∀ t ∈ tickets, t.key ≠ none)
    (hFreshR : ∀ r ∈ db.releases, r.id ≠ db.nextReleaseId)
    (hFreshT : ∀ x ∈ db.tickets, x.release_id ≠ db.nextReleaseId) :
    ∃ v, (createRelease db rel tickets u).1 = Except.ok (some v) ∧
      fetchReleaseById ((createRelease db rel tickets u).2) db.nextReleaseId
        = Except.ok (some v) ∧
      v.id = db.nextReleaseId ∧
      v.release_date = rel.release_date ∧
      v.status = rel.status ∧
      v.release_type = rel.release_type ∧
      v.explanation = jsOrNull rel.explanation ∧
      v.created_by = u ∧
      v.created_at = db.now ∧
      v.deleted_at = none ∧
      v.deleted_by = none ∧
      v.excluded_tickets = groupConcat (tickets.filterMap (fun t => t.key)) ∧
      (tickets.filterMap (fun t => t.key)).length = tickets.length ∧
      v.ticket_summaries = groupConcat (tickets.filterMap (fun t => t.summary)) ∧
      v.ticket_urls = groupConcat (tickets.filterMap (fun t => t.url)) ∧
      (tickets = [] → v.excluded_tickets = none) ∧
      ∀ x ∈ ticketsFor ((createRelease db rel tickets u).2) db.nextReleaseId,
        x.created_by = u := by
  have hins := insertReleaseRow_ok db rel u hR hC hs hty
  obtain ⟨rows, hrec, hkeys, hsum, hurl, hlen, hmem⟩ :=
    insertChildren_ok tickets (parentInserted db rel u) db.nextReleaseId u hTk hK
  rcases hic : insertChildren (parentInserted db rel u) db.nextReleaseId u tickets
    with ⟨db2, err⟩
  rw [hic] at hrec
  injection hrec with hdb2 herr
  subst herr
  have hRe2 : db2.releasesTableExists = true := by rw [hdb2]; exact hR
  have hTk2 : db2.ticketsTableExists = true := by rw [hdb2]; exact hTk
  have hrel2 : db2.releases = db.releases ++ [newReleaseRow db rel u] := by
    rw [hdb2]; rfl
  have htk2 : db2.tickets = db.tickets ++ rows := by
    rw [hdb2]; rfl
  have hfind : (db.releases ++ [newReleaseRow db rel u]).find?
      (fun r => r.id == db.nextReleaseId) = some (newReleaseRow db rel u) := by
    rw [List.find?_append]
    have h0 : db.releases.find? (fun r => r.id == db.nextReleaseId) = none := by
      rw [List.find?_eq_none]
      intro x hx
      simp [hFreshR x hx]
    rw [h0, Option.none_or]
    simp [List.find?_cons, newReleaseRow]
  have hfetch : fetchReleaseById db2 db.nextReleaseId
      = Except.ok (some (viewOf db2 (newReleaseRow db rel u))) := by
    simp [fetchReleaseById, hRe2, hTk2, hrel2, hfind]
  have hcr : createRelease db rel tickets u
      = (Except.ok (some (viewOf db2 (newReleaseRow db rel u))), db2) := by
    simp only [createRelease, hins, hic, hfetch]
  have htf : ticketsFor db2 db.nextReleaseId = rows := by
    show db2.tickets.filter (fun t => t.release_id == db.nextReleaseId) = rows
    rw [htk2, List.filter_append]
    have h1 : db.tickets.filter (fun t => t.release_id == db.nextReleaseId) = [] := by
      rw [List.filter_eq_nil_iff]
      intro x hx
      simp [hFreshT x hx]
    have h2 : rows.filter (fun t => t.release_id == db.nextReleaseId) = rows := by
      rw [List.filter_eq_self]
      intro x hx
      simp [(hmem x hx).1]
    rw [h1, h2, List.nil_append]
  refine ⟨viewOf db2 (newReleaseRow db rel u),
          by rw [hcr], by rw [hcr]; exact hfetch,
          rfl, rfl, rfl, rfl, rfl, rfl, rfl, rfl, rfl, ?_, ?_, ?_, ?_, ?_, ?_⟩
  · show groupConcat ((ticketsFor db2 db.nextReleaseId).map (fun t => t.ticket_key))
        = groupConcat (tickets.filterMap (fun t => t.key))
    rw [htf, hkeys]
  · rw [← hkeys, List.length_map, hlen]
  · show groupConcat
        ((ticketsFor db2 db.nextReleaseId).filterMap (fun t => t.ticket_summary))
        = groupConcat (tickets.filterMap (fun t => t.summary))
    rw [htf, hsum]
  · show groupConcat
        ((ticketsFor db2 db.nextReleaseId).filterMap (fun t => t.ticket_url))
        = groupConcat (tickets.filterMap (fun t => t.url))
    rw [htf, hurl]
  · intro hnil
    subst hnil
    show groupConcat ((ticketsFor db2 db.nextReleaseId).map (fun t => t.ticket_key))
        = none
    rw [htf, hkeys]
    rfl
  · intro x hx
    rw [hcr] at hx
    rw [htf] at hx
    exact (hmem x hx).2.1

/-- Two well-formed resolved tickets, in submission order. -/
def twoTickets : List Ticket :=
  [{ key := some "ABC-1", summary := some "fix login", url := some "u1" },
   { key := some "ABC-2", summary := some "fix logout", url := some "u2" }]

/-- C6 (witness for the amended theorem): a creation with two resolved
tickets round-trips the submitted data in order. -/
theorem createRelease_then_fetch_roundtrip_witness :
    ∃ v, (createRelease dbInit sampleInput twoTickets "a@x.com").1
        = Except.ok (some v) ∧
      fetchReleaseById ((createRelease dbInit sampleInput twoTickets "a@x.com").2)
        dbInit.nextReleaseId = Except.ok (some v) ∧
      v.id = dbInit.nextReleaseId ∧
      v.release_date = sampleInput.release_date ∧
      v.status = sampleInput.status ∧
      v.release_type = sampleInput.release_type ∧
      v.explanation = jsOrNull sampleInput.explanation ∧
      v.created_by = "a@x.com" ∧
      v.created_at = dbInit.now ∧
      v.deleted_at = none ∧
      v.deleted_by = none ∧
      v.excluded_tickets = groupConcat (twoTickets.filterMap (fun t => t.key)) ∧
      (twoTickets.filterMap (fun t => t.key)).length = twoTickets.length ∧
      v.ticket_summaries = groupConcat (twoTickets.filterMap (fun t => t.summary)) ∧
      v.ticket_urls = groupConcat (twoTickets.filterMap (fun t => t.url)) ∧
      (twoTickets = [] → v.excluded_tickets = none) ∧
      ∀ x ∈ ticketsFor ((createRelease dbInit sampleInput twoTickets "a@x.com").2)
          dbInit.nextReleaseId, x.created_by = "a@x.com" :=
  createRelease_then_fetch_roundtrip dbInit sampleInput twoTickets "a@x.com"
    rfl rfl rfl (Or.inl rfl) (Or.inl rfl)
    (by decide)
    (fun r hr => absurd hr (List.not_mem_nil r))
    (fun x hx => absurd hx (List.not_mem_nil x))

/-! ## C7: the active-release listing -/

/-- C7: `fetchRecentReleases` returns at most `limit` rows, all with null
`deleted_at`, ordered by creation time descending; and after a successful
`deleteRelease` on an id, no listed row carries that id. -/
theorem fetchRecentReleases_spec :
    (∀ (db : Db) (N : Nat), 0 < N → db.releasesTableExists = true →
      db.ticketsTableExists = true →
      ∃ rows, fetchRecentReleases db N = Except.ok rows ∧
        rows.length ≤ N ∧
        (∀ v ∈ rows, v.deleted_at = none) ∧
        rows.Pairwise (fun a b => b.created_at ≤ a.created_at)) ∧
    (∀ (db : Db) (rid : Nat) (u : String) (N : Nat) (rows : List ReleaseView),
      (deleteRelease db rid u).1 = Except.ok true →
      fetchRecentReleases ((deleteRelease db rid u).2) N = Except.ok rows →
      ∀ v ∈ rows, v.id ≠ rid) := by
  constructor
  · intro db N hN hR hTk
    have heq : fetchRecentReleases db N
        = Except.ok (((List.insertionSort createdDesc
            (db.releases.filter (fun r => r.deleted_at == none))).take N).map
          (viewOf db)) := by
      simp [fetchRecentReleases, hR, hTk]
    refine ⟨_, heq, ?_, ?_, ?_⟩
    · rw [List.length_map, List.length_take]
      exact min_le_left _ _
    · intro v hv
      obtain ⟨r, hr, rfl⟩ := List.mem_map.mp hv
      have hr2 := List.mem_of_mem_take hr
      have hr3 := (List.perm_insertionSort createdDesc _).mem_iff.mp hr2
      have hcond := (List.mem_filter.mp hr3).2
      show r.deleted_at = none
      simpa using hcond
    · have hsorted : List.Sorted createdDesc
          (List.insertionSort createdDesc
            (db.releases.filter (fun r => r.deleted_at == none))) :=
        List.sorted_insertionSort createdDesc _
      have htake := List.Pairwise.sublist (List.take_sublist N _) hsorted
      exact List.Pairwise.map (viewOf db) (fun a b h => h) htake
  · intro db rid u N rows hdel hfetch v hv
    by_cases hT : db.releasesTableExists = true
    · have hX : (deleteRelease db rid u).2
          = { db with releases := db.releases.map (softDeleteRow rid db.now u) } := by
        rw [deleteRelease_eq db rid u hT]
      rw [hX] at hfetch
      by_cases hTk : db.ticketsTableExists = true
      · have heq : fetchRecentReleases
            { db with releases := db.releases.map (softDeleteRow rid db.now u) } N
            = Except.ok (((List.insertionSort createdDesc
                ((db.releases.map (softDeleteRow rid db.now u)).filter
                  (fun r => r.deleted_at == none))).take N).map
              (viewOf { db with
                releases := db.releases.map (softDeleteRow rid db.now u) })) := by
          simp [fetchRecentReleases, hT, hTk]
        rw [heq] at hfetch
        injection hfetch with hrows
        subst hrows
        obtain ⟨r, hr, rfl⟩ := List.mem_map.mp hv
        have hr2 := List.mem_of_mem_take hr
        have hr3 := (List.perm_insertionSort createdDesc _).mem_iff.mp hr2
        obtain ⟨hrmem, hcond⟩ := List.mem_filter.mp hr3
        obtain ⟨r0, hr0, rfl⟩ := List.mem_map.mp hrmem
        show (softDeleteRow rid db.now u r0).id ≠ rid
        intro hid
        by_cases hc : r0.id = rid ∧ r0.deleted_at = none
        · rw [show softDeleteRow rid db.now u r0
              = { r0 with deleted_at := some db.now, deleted_by := some u } from by
                simp [softDeleteRow, hc]] at hcond
          simp at hcond
        · rw [show softDeleteRow rid db.now u r0 = r0 from by
                simp [softDeleteRow, hc]] at hcond hid
          have hdelnone : r0.deleted_at = none := by simpa using hcond
          exact hc ⟨hid, hdelnone⟩
      · have hF : db.ticketsTableExists = false := by
          revert hTk
          cases db.ticketsTableExists <;> simp
        rw [show fetchRecentReleases
            { db with releases := db.releases.map (softDeleteRow rid db.now u) } N
            = Except.error "no such table" from by
              simp [fetchRecentReleases, hF]] at hfetch
        exact Except.noConfusion hfetch
    · have hF : db.releasesTableExists = false := by
        revert hT
        cases db.releasesTableExists <;> simp
      rw [show deleteRelease db rid u
          = (Except.error "no such table: releases", db) from by
            simp [deleteRelease, hF]] at hdel
      exact Except.noConfusion hdel

/-- C7 (witness): at the one-active-row database with the default limit. -/
theorem fetchRecentReleases_spec_witness :
    ∃ rows, fetchRecentReleases dbOneActive 10 = Except.ok rows ∧
      rows.length ≤ 10 ∧ (∀ v ∈ rows, v.deleted_at = none) ∧
      rows.Pairwise (fun a b => b.created_at ≤ a.created_at) :=
  fetchRecentReleases_spec.1 dbOneActive 10 (by decide) rfl rfl
/-! ## C5: failure reporting of the migration guard and its callers -/

/-- A state whose recorded version is 1 while the `release_type` column is
already present, holding one active release: `initializeDatabase` fails on
it, yet the listing handler proceeds. -/
def sC5 : St := { db := dbOneActive, kv := some "1" }

/-- The aggregated view of the single release of `dbOneActive`. -/
def rowOneActiveView : ReleaseView :=
  { id := 1, release_date := "2024-06-02", status := "GO", release_type := "FULL",
    explanation := some "why", created_by := "a@x.com", created_at := 0,
    updated_by := none, updated_at := none, deleted_at := none, deleted_by := none,
    excluded_tickets := none, ticket_summaries := none, ticket_urls := none }

/-- C5 (counterexample): at `sC5` the guard returns `false`, but
`handleGetReleases` does not refuse to proceed — it ignores the boolean
and renders the releases page instead of surfacing an initialization
error. -/
theorem handleGetReleases_ignores_init_failure_cex :
    (initializeDatabase sC5).1 = false ∧
    (handleGetReleases sC5).1 = HandlerOutcome.page [rowOneActiveView] := by
  exact ⟨rfl, rfl⟩

/-- C5 (amended): `initializeDatabase` never throws — it returns `true`, or
returns `false` exactly when a migration step failed internally; but its
caller `handleGetReleases` ignores that boolean: whatever the guard
returned, the handler's outcome is determined solely by the subsequent
fetch. -/
theorem initializeDatabase_bool_and_handler_ignores :
    (∀ s : St,
      (initializeDatabase s).1 = true ∨
      ((initializeDatabase s).1 = false ∧
        ∃ e, applyMigrations
          (if readVersion s.kv = 0 then createInitialSchema s.db else s.db)
          (readVersion s.kv) = Except.error e)) ∧
    (∀ (s : St) (rows : List ReleaseView),
      fetchRecentReleases ((initializeDatabase s).2).db 10 = Except.ok rows →
      (handleGetReleases s).1 = HandlerOutcome.page rows ∧
      (handleGetReleases s).2 = (initializeDatabase s).2) := by
  constructor
  · intro s
    by_cases hv : readVersion s.kv < CURRENT_SCHEMA_VERSION
    · by_cases hz : readVersion s.kv = 0
      · rcases hm : applyMigrations (createInitialSchema s.db) (readVersion s.kv)
          with e | db2
        · right
          refine ⟨?_, e, by rw [if_pos hz]; exact hm⟩
          simp only [initializeDatabase, if_pos hz, if_pos hv, hm]
        · left
          simp only [initializeDatabase, if_pos hz, if_pos hv, hm]
      · rcases hm : applyMigrations s.db (readVersion s.kv) with e | db2
        · right
          refine ⟨?_, e, by rw [if_neg hz]; exact hm⟩
          simp only [initializeDatabase, if_neg hz, if_pos hv, hm]
        · left
          simp only [initializeDatabase, if_neg hz, if_pos hv, hm]
    · left
      have hz : ¬(readVersion s.kv = 0) := by
        intro h0
        exact hv (by rw [h0]; decide)
      simp only [initializeDatabase, if_neg hz, if_neg hv]
  · intro s rows hOk
    simp only [handleGetReleases, hOk]
    exact ⟨trivial, trivial⟩

/-- C5 (witness for the amended theorem), applied at the failing state. -/
theorem initializeDatabase_bool_and_handler_ignores_witness :
    (handleGetReleases sC5).1 = HandlerOutcome.page [rowOneActiveView] ∧
    (handleGetReleases sC5).2 = (initializeDatabase sC5).2 :=
  initializeDatabase_bool_and_handler_ignores.2 sC5 [rowOneActiveView] rfl

/-! ## C9: the closed status and release-type sets are an invariant -/

/-- The storage CHECK constraints on one release row: status is GO or
NO_GO, release type is FULL or HOTFIX. -/
def validRow (r : ReleaseRow) : Prop :=
  (r.status = "GO" ∨ r.status = "NO_GO") ∧
  (r.release_type = "FULL" ∨ r.release_type = "HOTFIX")

/-- One state transition of the program: a guard run, a create (with any
inputs), a soft delete, or a version-1-style insert that leaves
`release_type` to its default. -/
inductive Step : St → St → Prop
  | initDb (s : St) : Step s (initializeDatabase s).2
  | create (s : St) (rel : ReleaseInput) (tickets : List Ticket) (u : String) :
      Step s { s with db := (createRelease s.db rel tickets u).2 }
  | softDel (s : St) (rid : Nat) (u : String) :
      Step s { s with db := (deleteRelease s.db rid u).2 }
  | insertDefault (s : St) (date status : String) (expl : Option String)
      (u : String) (db2 : Db) (rid : Nat) :
      insertReleaseRowDefaultType s.db date status expl u = Except.ok (db2, rid) →
      Step s { s with db := db2 }

/-- States reachable from the pristine deployment state. -/
inductive Reachable : St → Prop
  | base : Reachable { db := emptyDb, kv := none }
  | step {s t : St} : Reachable s → Step s t → Reachable t

/-- Soft-deleting a row does not change its status or release type. -/
theorem validRow_softDeleteRow (rid now : Nat) (u : String) (r : ReleaseRow)
    (h : validRow r) : validRow (softDeleteRow rid now u r) := by
  by_cases hc : r.id = rid ∧ r.deleted_at = none
  · rw [show softDeleteRow rid now u r
        = { r with deleted_at := some now, deleted_by := some u } from by
          simp [softDeleteRow, hc]]
    exact ⟨h.1, h.2⟩
  · rw [show softDeleteRow rid now u r = r from by simp [softDeleteRow, hc]]
    exact h

/-- Base-schema creation either keeps the release rows or starts from an
empty table. -/
theorem createInitialSchema_releases (db : Db) :
    (createInitialSchema db).releases = db.releases ∨
    (createInitialSchema db).releases = [] := by
  by_cases h1 : db.releasesTableExists <;>
    by_cases h2 : db.ticketsTableExists <;>
      simp [createInitialSchema, h1, h2]

/-- A successful migration run keeps the rows or backfills their
`release_type` with FULL. -/
theorem applyMigrations_rows (db : Db) (v : Nat) (db2 : Db)
    (h : applyMigrations db v = Except.ok db2) :
    db2.releases = db.releases ∨
    db2.releases = db.releases.map (fun r => { r with release_type := "FULL" }) := by
  unfold applyMigrations at h
  by_cases hv : v < 2
  · rw [if_pos hv] at h
    by_cases h1 : (!db.releasesTableExists) = true
    · rw [if_pos h1] at h
      exact Except.noConfusion h
    · rw [if_neg h1] at h
      by_cases h2 : db.hasReleaseType = true
      · rw [if_pos h2] at h
        exact Except.noConfusion h
      · rw [if_neg h2] at h
        injection h with h
        right
        rw [← h]
  · rw [if_neg hv] at h
    injection h with h
    left
    rw [← h]

/-- The guard preserves validity of all stored release rows. -/
theorem initializeDatabase_preserves_validRows (s : St)
    (h : ∀ r ∈ s.db.releases, validRow r) :
    ∀ r ∈ ((initializeDatabase s).2).db.releases, validRow r := by
  have hcs : ∀ r ∈ (createInitialSchema s.db).releases, validRow r := by
    rcases createInitialSchema_releases s.db with heq | heq <;> rw [heq]
    · exact h
    · intro r hr
      exact absurd hr (List.not_mem_nil r)
  have happ : ∀ (dbx : Db), (∀ r ∈ dbx.releases, validRow r) →
      ∀ (v : Nat) (db2 : Db), applyMigrations dbx v = Except.ok db2 →
      ∀ r ∈ db2.releases, validRow r := by
    intro dbx hval v db2 hok r hr
    rcases applyMigrations_rows dbx v db2 hok with heq | heq
    · rw [heq] at hr
      exact hval r hr
    · rw [heq] at hr
      obtain ⟨r0, hr0, rfl⟩ := List.mem_map.mp hr
      exact ⟨(hval r0 hr0).1, Or.inl rfl⟩
  by_cases hv : readVersion s.kv < CURRENT_SCHEMA_VERSION
  · by_cases hz : readVersion s.kv = 0
    · rcases hm : applyMigrations (createInitialSchema s.db) (readVersion s.kv)
        with e | db2
      · simp only [initializeDatabase, if_pos hz, if_pos hv, hm]
        exact hcs
      · simp only [initializeDatabase, if_pos hz, if_pos hv, hm]
        exact happ _ hcs _ _ hm
    · rcases hm : applyMigrations s.db (readVersion s.kv) with e | db2
      · simp only [initializeDatabase, if_neg hz, if_pos hv, hm]
        exact h
      · simp only [initializeDatabase, if_neg hz, if_pos hv, hm]
        exact happ _ h _ _ hm
  · have hz : ¬(readVersion s.kv = 0) := by
      intro h0
      exact hv (by rw [h0]; decide)
    simp only [initializeDatabase, if_neg hz, if_neg hv]
    exact h
/-- Inversion of a successful parent INSERT: the CHECK constraints held and
exactly the new row was appended. -/
theorem insertReleaseRow_inv (db : Db) (rel : ReleaseInput) (u : String)
    (db1 : Db) (rid : Nat)
    (h : insertReleaseRow db rel u = Except.ok (db1, rid)) :
    db1 = parentInserted db rel u ∧ validRow (newReleaseRow db rel u) := by
  unfold insertReleaseRow at h
  by_cases h1 : (!db.releasesTableExists) = true
  · rw [if_pos h1] at h
    exact Except.noConfusion h
  rw [if_neg h1] at h
  by_cases h2 : (!db.hasReleaseType) = true
  · rw [if_pos h2] at h
    exact Except.noConfusion h
  rw [if_neg h2] at h
  by_cases h3 : (!(rel.status == "GO" || rel.status == "NO_GO")) = true
  · rw [if_pos h3] at h
    exact Except.noConfusion h
  rw [if_neg h3] at h
  by_cases h4 : (!(rel.release_type == "FULL" || rel.release_type == "HOTFIX")) = true
  · rw [if_pos h4] at h
    exact Except.noConfusion h
  rw [if_neg h4] at h
  injection h with h
  have hs : (rel.status == "GO" || rel.status == "NO_GO") = true := by
    revert h3
    cases rel.status == "GO" || rel.status == "NO_GO" <;> simp
  have hty : (rel.release_type == "FULL" || rel.release_type == "HOTFIX") = true := by
    revert h4
    cases rel.release_type == "FULL" || rel.release_type == "HOTFIX" <;> simp
  have hs2 : rel.status = "GO" ∨ rel.status = "NO_GO" := by simpa using hs
  have hty2 : rel.release_type = "FULL" ∨ rel.release_type = "HOTFIX" := by
    simpa using hty
  injection h with ha hb
  exact ⟨ha.symm, hs2, hty2⟩

/-- Every release row present after a `createRelease` call, however it
ended, was already stored or satisfies the CHECK constraints. -/
theorem createRelease_rows (db : Db) (rel : ReleaseInput) (tickets : List Ticket)
    (u : String) :
    ∀ r ∈ ((createRelease db rel tickets u).2).releases,
      r ∈ db.releases ∨ validRow r := by
  intro r hr
  rcases hp : insertReleaseRow db rel u with e | pair
  · rw [show (createRelease db rel tickets u).2 = db from by
        simp only [createRelease, hp]] at hr
    exact Or.inl hr
  · rcases pair with ⟨db1, rid⟩
    obtain ⟨hdb1, hvnew⟩ := insertReleaseRow_inv db rel u db1 rid hp
    rcases hic : insertChildren db1 rid u tickets with ⟨db2, err⟩
    have hpres : db2.releases = db1.releases := by
      have h2 := insertChildren_releases tickets db1 rid u
      rw [hic] at h2
      exact h2
    have hr2 : r ∈ db2.releases := by
      cases err with
      | none =>
          rcases hf : fetchReleaseById db2 rid with e2 | v
          · rw [show (createRelease db rel tickets u).2 = db2 from by
                simp only [createRelease, hp, hic, hf]] at hr
            exact hr
          · rw [show (createRelease db rel tickets u).2 = db2 from by
                simp only [createRelease, hp, hic, hf]] at hr
            exact hr
      | some e =>
          rw [show (createRelease db rel tickets u).2 = db2 from by
              simp only [createRelease, hp, hic]] at hr
          exact hr
    rw [hpres, hdb1] at hr2
    have hr3 : r ∈ db.releases ++ [newReleaseRow db rel u] := hr2
    rcases List.mem_append.mp hr3 with hin | hnew
    · exact Or.inl hin
    · rw [List.mem_singleton.mp hnew]
      exact Or.inr hvnew

/-- Soft deletion preserves validity of all stored release rows. -/
theorem deleteRelease_preserves_valid (db : Db) (rid : Nat) (u : String)
    (h : ∀ r ∈ db.releases, validRow r) :
    ∀ r ∈ ((deleteRelease db rid u).2).releases, validRow r := by
  by_cases hT : db.releasesTableExists = true
  · rw [show (deleteRelease db rid u).2
        = { db with releases := db.releases.map (softDeleteRow rid db.now u) } from by
          rw [deleteRelease_eq db rid u hT]]
    intro r hr
    obtain ⟨r0, hr0, rfl⟩ := List.mem_map.mp hr
    exact validRow_softDeleteRow rid db.now u r0 (h r0 hr0)
  · have hF : db.releasesTableExists = false := by
      revert hT
      cases db.releasesTableExists <;> simp
    rw [show (deleteRelease db rid u).2 = db from by simp [deleteRelease, hF]]
    exact h

/-- Inversion of a successful default-type INSERT: the status CHECK held
and the appended row carries the FULL default. -/
theorem insertReleaseRowDefaultType_inv (db : Db) (date st : String)
    (expl : Option String) (u : String) (db2 : Db) (rid : Nat)
    (h : insertReleaseRowDefaultType db date st expl u = Except.ok (db2, rid)) :
    ∀ r ∈ db2.releases, r ∈ db.releases ∨ validRow r := by
  unfold insertReleaseRowDefaultType at h
  by_cases h1 : (!db.releasesTableExists) = true
  · rw [if_pos h1] at h
    exact Except.noConfusion h
  rw [if_neg h1] at h
  by_cases h3 : (!(st == "GO" || st == "NO_GO")) = true
  · rw [if_pos h3] at h
    exact Except.noConfusion h
  rw [if_neg h3] at h
  injection h with h
  injection h with ha hb
  have hs : (st == "GO" || st == "NO_GO") = true := by
    revert h3
    cases st == "GO" || st == "NO_GO" <;> simp
  have hs2 : st = "GO" ∨ st = "NO_GO" := by simpa using hs
  intro r hr
  rw [← ha] at hr
  rcases List.mem_append.mp hr with hin | hnew
  · exact Or.inl hin
  · rw [List.mem_singleton.mp hnew]
    exact Or.inr ⟨hs2, Or.inl rfl⟩

/-- A rejected parent INSERT: when either submitted enum value is outside
its closed set, the insert throws. -/
theorem insertReleaseRow_invalid (db : Db) (rel : ReleaseInput) (u : String)
    (hbad : ¬(rel.status = "GO" ∨ rel.status = "NO_GO") ∨
            ¬(rel.release_type = "FULL" ∨ rel.release_type = "HOTFIX")) :
    ∃ e, insertReleaseRow db rel u = Except.error e := by
  unfold insertReleaseRow
  split_ifs with h1 h2 h3 h4
  · exact ⟨_, rfl⟩
  · exact ⟨_, rfl⟩
  · exact ⟨_, rfl⟩
  · exact ⟨_, rfl⟩
  · exfalso
    have hs : (rel.status == "GO" || rel.status == "NO_GO") = true := by
      revert h3
      cases rel.status == "GO" || rel.status == "NO_GO" <;> simp
    have hty : (rel.release_type == "FULL" || rel.release_type == "HOTFIX") = true := by
      revert h4
      cases rel.release_type == "FULL" || rel.release_type == "HOTFIX" <;> simp
    rcases hbad with hb | hb
    · exact hb (by simpa using hs)
    · exact hb (by simpa using hty)

/-- Every program step preserves validity of stored release rows. -/
theorem step_preserves_valid {s t : St} (hst : Step s t)
    (h : ∀ r ∈ s.db.releases, validRow r) :
    ∀ r ∈ t.db.releases, validRow r := by
  cases hst with
  | initDb => exact initializeDatabase_preserves_validRows s h
  | create rel tickets u =>
      intro r hr
      rcases createRelease_rows s.db rel tickets u r hr with hin | hv
      · exact h r hin
      · exact hv
  | softDel rid u => exact deleteRelease_preserves_valid s.db rid u h
  | insertDefault date st expl u db2 rid hok =>
      intro r hr
      rcases insertReleaseRowDefaultType_inv s.db date st expl u db2 rid hok r hr
        with hin | hv
      · exact h r hin
      · exact hv

/-- C9: in every reachable state, every stored release row draws its
status from GO or NO_GO and its release type from FULL or HOTFIX; and a
create supplying any value outside these closed sets is rejected by the
storage layer with an error, inserting no row and changing nothing. -/
theorem release_rows_invariant (s : St) (h : Reachable s) :
    (∀ r ∈ s.db.releases, validRow r) ∧
    (∀ (rel : ReleaseInput) (tickets : List Ticket) (u : String),
      ¬(rel.status = "GO" ∨ rel.status = "NO_GO") ∨
      ¬(rel.release_type = "FULL" ∨ rel.release_type = "HOTFIX") →
      (∃ e, (createRelease s.db rel tickets u).1 = Except.error e) ∧
      (createRelease s.db rel tickets u).2 = s.db) := by
  constructor
  · induction h with
    | base =>
        intro r hr
        exact absurd hr (List.not_mem_nil r)
    | step _ hstep ih => exact step_preserves_valid hstep ih
  · intro rel tickets u hbad
    obtain ⟨e, he⟩ := insertReleaseRow_invalid s.db rel u hbad
    exact ⟨⟨e, by simp only [createRelease, he]⟩, by simp only [createRelease, he]⟩

/-- The state after the guard initializes a pristine deployment. -/
def s1R : St := (initializeDatabase { db := emptyDb, kv := none }).2

/-- The state after then creating one release. -/
def s2R : St := { s1R with db := (createRelease s1R.db sampleInput [] "a@x.com").2 }

/-- C9 (witness): the invariant holds for the row stored in the reachable
state with one created release. -/
theorem release_rows_invariant_witness :
    validRow
      { id := 1, release_date := "2024-06-02", status := "GO",
        release_type := "FULL", explanation := some "why",
        created_by := "a@x.com", created_at := 0, updated_by := none,
        updated_at := none, deleted_at := none, deleted_by := none } :=
  (release_rows_invariant s2R
    (Reachable.step (Reachable.step Reachable.base (Step.initDb _))
      (Step.create s1R sampleInput [] "a@x.com"))).1 _ (by decide)
end Greenlight
